import Mathlib

/-!
Verification of the PCIe error-recovery core (`drivers/pci/pcie/err.c`):
the vote merger `merge_result`, the per-phase report callbacks, and the
non-fatal and fatal recovery orchestrators, together with the broadcast
walk over a device subtree.

Machine enums become Lean inductives; per-device mutable channel state is
threaded as an explicit map from device id to channel state; externally
observable actions (uevents, log lines, device removal, link/bus reset)
are recorded in an event trace. External primitives that are not part of
this snapshot (`pci_dev_set_io_state`, `pci_dev_set_disconnected`,
`pci_stop_and_remove_bus_device`, `pci_reset_bus`, `reset_link`) are
modelled from the spec, as their doc comments state; `pci_reset_bus` and
`reset_link` outcomes are inputs of the orchestrators.
-/

namespace PcieErr

/-- The `pci_ers_result_t` enumeration of recovery votes. -/
inductive PciErsResult where
  | none
  | canRecover
  | recovered
  | needReset
  | disconnect
  | noAerDriver
deriving DecidableEq, Repr

/-- The `pci_channel_state_t` enumeration. -/
inductive ChannelState where
  | normal
  | frozen
  | permFailure
deriving DecidableEq, Repr

/-- Device header kind: `dev->hdr_type`; only the distinction
`PCI_HEADER_TYPE_BRIDGE` versus anything else matters to the code. -/
inductive HdrType where
  | endpoint
  | bridge
deriving DecidableEq, Repr

/-- The optional error-handler capability set (`struct pci_error_handlers`).
Each callback is bound to its device, so it is modelled by the value it
returns on that device: `error_detected` additionally takes the channel
state argument. `resume` returns nothing, so only its presence matters. -/
structure PciErrorHandlers where
  error_detected : Option (ChannelState → PciErsResult)
  mmio_enabled : Option PciErsResult
  slot_reset : Option PciErsResult
  resume : Bool

/-- The part of `struct pci_driver` consulted here: its `err_handler`. -/
structure Driver where
  err_handler : Option PciErrorHandlers

/-- The static part of a `struct pci_dev`: its identity, header kind and
optionally bound driver. The mutable channel state (`dev->error_state`)
lives in a separate state map keyed by `id`. -/
structure Device where
  id : Nat
  hdr_type : HdrType
  driver : Option Driver

/-- The error-handler chain `dev->driver->err_handler`, `none` when any
link is absent. -/
def errHandlerOf (d : Device) : Option PciErrorHandlers :=
  d.driver.bind Driver.err_handler

/-- The bound `error_detected` callback's vote at channel state
`pci_channel_io_normal` (as the non-fatal path invokes it), `none` when
the device has no driver, no `err_handler`, or no `error_detected`. -/
def detectVote (d : Device) : Option PciErsResult :=
  ((errHandlerOf d).bind PciErrorHandlers.error_detected).map
    (fun f => f ChannelState.normal)

/-- The bound `mmio_enabled` callback's vote, `none` when absent. -/
def mmioVote (d : Device) : Option PciErsResult :=
  (errHandlerOf d).bind PciErrorHandlers.mmio_enabled

/-- Function `merge_result` from err.c: combine the running broadcast vote `orig`
with one device's incoming vote `new`. -/
def merge_result (orig new : PciErsResult) : PciErsResult :=
  if new = PciErsResult.noAerDriver then
    PciErsResult.noAerDriver
  else if new = PciErsResult.none then
    orig
  else
    match orig with
    | PciErsResult.canRecover | PciErsResult.recovered => new
    | PciErsResult.disconnect =>
        if new = PciErsResult.needReset then PciErsResult.needReset
        else PciErsResult.disconnect
    | _ => orig

/-- Recovery phase of the broadcast protocol, used to tag the
"broadcast <phase> message" debug lines of the orchestrator. -/
inductive Phase where
  | phDetect
  | phMmio
  | phSlotReset
  | phResume
deriving DecidableEq, Repr

/-- Externally observable actions of the recovery core, recorded in order:
`uevent i v` is `pci_uevent_ers` for device `i` with vote `v`;
`logCantRecover i` is the "can't recover (no error_detected callback)"
message; `dbg i p` is the "broadcast <phase> message" debug line of the
orchestrator acting at port `i`; `resumed i` records that device `i`'s
`resume` callback ran; `setDisconnected i` is `pci_dev_set_disconnected`
on device `i`; `remove i` is the removal of device `i`;
`resetLink i` / `resetBus i` are the external reset primitives on `i`;
`rescan i` is the rediscovery triggered under `i` after a successful
fatal-path reset. -/
inductive Event where
  | uevent (i : Nat) (v : PciErsResult)
  | logCantRecover (i : Nat)
  | dbg (i : Nat) (p : Phase)
  | resumed (i : Nat)
  | setDisconnected (i : Nat)
  | remove (i : Nat)
  | resetLink (i : Nat)
  | resetBus (i : Nat)
  | rescan (i : Nat)
deriving DecidableEq, Repr

/-- Modelled from the spec: `pci_dev_set_io_state` lives in
`drivers/pci/pci.h`, which is not part of this repository snapshot. The
spec says the broadcast walker "atomically set[s] channel state to the
reported fault state (`FROZEN` or `NORMAL`); if this device had already
been marked `PERM_FAILURE` by a concurrent disconnect, the set fails",
and the fatal path marks devices `PERM_FAILURE` unconditionally. Returns
whether the set succeeded together with the resulting channel state. -/
def pci_dev_set_io_state (cur new : ChannelState) : Bool × ChannelState :=
  match new with
  | ChannelState.permFailure => (true, ChannelState.permFailure)
  | _ =>
      if cur = ChannelState.permFailure then (false, cur) else (true, new)

/-- Function `report_error_detected` from err.c: under the device lock, try to set
the channel state to the reported `state`; if that fails, or the device
has no driver, no `err_handler`, or no `error_detected` callback, vote
`NO_AER_DRIVER` for a non-bridge (logging "can't recover") and `NONE`
for a bridge; otherwise invoke the callback. Emit a `pci_uevent_ers`
with the vote and merge it into the running `result`. Returns the new
channel state of the device, the merged result, and the emitted events. -/
def report_error_detected (dev : Device) (state : ChannelState)
    (cur : ChannelState) (result : PciErsResult) :
    ChannelState × PciErsResult × List Event :=
  let ok := pci_dev_set_io_state cur state
  match ok.1, (errHandlerOf dev).bind PciErrorHandlers.error_detected with
  | true, some cb =>
      let vote := cb state
      (ok.2, merge_result result vote, [Event.uevent dev.id vote])
  | _, _ =>
      if dev.hdr_type ≠ HdrType.bridge then
        (ok.2, merge_result result PciErsResult.noAerDriver,
         [Event.logCantRecover dev.id,
          Event.uevent dev.id PciErsResult.noAerDriver])
      else
        (ok.2, merge_result result PciErsResult.none,
         [Event.uevent dev.id PciErsResult.none])

/-- Function `report_normal_detected` from err.c: `report_error_detected` with
channel state `pci_channel_io_normal`, used by the non-fatal path. -/
def report_normal_detected (dev : Device) (cur : ChannelState)
    (result : PciErsResult) : ChannelState × PciErsResult × List Event :=
  report_error_detected dev ChannelState.normal cur result

/-- Function `report_mmio_enabled` from err.c: if the device has a driver with an
`err_handler` providing `mmio_enabled`, merge its vote into the running
result; otherwise leave the result unchanged. -/
def report_mmio_enabled (dev : Device) (result : PciErsResult) :
    PciErsResult :=
  match (errHandlerOf dev).bind PciErrorHandlers.mmio_enabled with
  | some vote => merge_result result vote
  | none => result

/-- Function `report_slot_reset` from err.c: same shape as `report_mmio_enabled`
for the `slot_reset` callback. -/
def report_slot_reset (dev : Device) (result : PciErsResult) :
    PciErsResult :=
  match (errHandlerOf dev).bind PciErrorHandlers.slot_reset with
  | some vote => merge_result result vote
  | none => result

/-- Function `report_resume` from err.c: try to set the channel state back to
`pci_channel_io_normal`; if that succeeded and a `resume` callback is
bound, invoke it; in every case emit `pci_uevent_ers` with `RECOVERED`.
Returns the new channel state and the emitted events. -/
def report_resume (dev : Device) (cur : ChannelState) :
    ChannelState × List Event :=
  let ok := pci_dev_set_io_state cur ChannelState.normal
  let invoked :=
    ok.1 && (match errHandlerOf dev with
             | some eh => eh.resume
             | none => false)
  if invoked then
    (ok.2, [Event.resumed dev.id,
            Event.uevent dev.id PciErsResult.recovered])
  else
    (ok.2, [Event.uevent dev.id PciErsResult.recovered])

/-- A `struct pci_bus` subtree: a device together with the device list of
its subordinate bus (in discovery order). A bus is a list of such trees. -/
inductive DevTree where
  | node (dev : Device) (subordinate : List DevTree)

mutual

/-- Devices of a subtree in `pci_walk_bus` visiting order (pre-order:
a device before the devices on its subordinate bus). -/
def devsT : DevTree → List Device
  | DevTree.node d cs => d :: devsF cs

/-- Devices of a bus's device list in `pci_walk_bus` visiting order. -/
def devsF : List DevTree → List Device
  | [] => []
  | t :: ts => devsT t ++ devsF ts

end

/-- The device at the root of a subtree. -/
def rootDev : DevTree → Device
  | DevTree.node d _ => d

mutual

/-- The (parent id, child id) arcs of a subtree: the root paired with
each device on its subordinate bus, and recursively below. -/
def childIdPairsT : DevTree → List (Nat × Nat)
  | DevTree.node d cs =>
      cs.map (fun c => (d.id, (rootDev c).id)) ++ childIdPairsF cs

/-- The (parent id, child id) arcs of all subtrees of a bus. -/
def childIdPairsF : List DevTree → List (Nat × Nat)
  | [] => []
  | t :: ts => childIdPairsT t ++ childIdPairsF ts

end

/-- The mutable channel states (`dev->error_state`), keyed by device id. -/
def StateMap : Type := Nat → ChannelState

/-- Point update of a state map. -/
def setState (σ : StateMap) (i : Nat) (s : ChannelState) : StateMap :=
  fun j => if j = i then s else σ j

/-- The walk `pci_walk_bus bus report_error_detected`: visit each device in order,
threading the channel states, the running merged vote, and the event
trace. -/
def walk_detect (devs : List Device) (state : ChannelState) (σ : StateMap)
    (st : PciErsResult) (evs : List Event) :
    StateMap × PciErsResult × List Event :=
  match devs with
  | [] => (σ, st, evs)
  | d :: ds =>
      let r := report_error_detected d state (σ d.id) st
      walk_detect ds state (setState σ d.id r.1) r.2.1 (evs ++ r.2.2)

/-- The walk `pci_walk_bus bus report_mmio_enabled`: fold the per-device votes. -/
def walk_mmio (devs : List Device) (st : PciErsResult) : PciErsResult :=
  match devs with
  | [] => st
  | d :: ds => walk_mmio ds (report_mmio_enabled d st)

/-- The walk `pci_walk_bus bus report_slot_reset`: fold the per-device votes. -/
def walk_slot (devs : List Device) (st : PciErsResult) : PciErsResult :=
  match devs with
  | [] => st
  | d :: ds => walk_slot ds (report_slot_reset d st)

/-- The walk `pci_walk_bus bus report_resume`: thread channel states and events;
`report_resume` never changes the running vote. -/
def walk_resume (devs : List Device) (σ : StateMap) (evs : List Event) :
    StateMap × List Event :=
  match devs with
  | [] => (σ, evs)
  | d :: ds =>
      let r := report_resume d (σ d.id)
      walk_resume ds (setState σ d.id r.1) (evs ++ r.2)

/-- Result of a recovery run: the returned vote, the final channel
states, and the emitted event trace. -/
structure RunResult where
  status : PciErsResult
  chan : StateMap
  events : List Event

/-- The `error_detected` broadcast of the non-fatal path: channel state
argument `pci_channel_io_normal`, initial vote `CAN_RECOVER`. -/
def detectPhase (devs : List Device) (σ0 : StateMap) :
    StateMap × PciErsResult × List Event :=
  walk_detect devs ChannelState.normal σ0 PciErsResult.canRecover []

/-- The running vote of the non-fatal path after the `error_detected`
broadcast and the conditional `mmio_enabled` broadcast (initial vote
`RECOVERED`, run only when the detect vote was `CAN_RECOVER`). -/
def statusAfterMmio (devs : List Device) (σ0 : StateMap) : PciErsResult :=
  let st1 := (detectPhase devs σ0).2.1
  if st1 = PciErsResult.canRecover then walk_mmio devs PciErsResult.recovered
  else st1

/-- The events emitted through the detect and mmio stages of the
non-fatal path: the detect debug line and broadcast events, then the
mmio debug line when that broadcast ran. -/
def nonfatalPreEvents (port : Device) (devs : List Device)
    (σ0 : StateMap) : List Event :=
  let d1 := detectPhase devs σ0
  let e1 := Event.dbg port.id Phase.phDetect :: d1.2.2
  if d1.2.1 = PciErsResult.canRecover then
    e1 ++ [Event.dbg port.id Phase.phMmio]
  else e1

/-- The `failed:` label of `pcie_do_nonfatal_recovery`: emit one
`pci_uevent_ers(dev, PCI_ERS_RESULT_DISCONNECT)` and return, touching no
channel state. -/
def nonfatalFailed (port : Device) (st : PciErsResult) (σ : StateMap)
    (evs : List Event) : RunResult :=
  { status := st, chan := σ,
    events := evs ++ [Event.uevent port.id PciErsResult.disconnect] }

/-- The tail of `pcie_do_nonfatal_recovery` after the reset stage: if the
running vote is not `RECOVERED`, go to `failed:`; otherwise broadcast
`resume` (which leaves the vote unchanged) and return. The success
epilogue's port status-register clears are external and not modelled. -/
def nonfatalTail (port : Device) (devs : List Device) (st : PciErsResult)
    (σ : StateMap) (evs : List Event) : RunResult :=
  if st = PciErsResult.recovered then
    let r := walk_resume devs σ (evs ++ [Event.dbg port.id Phase.phResume])
    { status := st, chan := r.1, events := r.2 }
  else nonfatalFailed port st σ evs

/-- Function `pcie_do_nonfatal_recovery` from err.c, acting at the downstream port
`port` whose subordinate bus is `bus`; `resetRet` is the return value of
the external `pci_reset_bus` primitive (negative means failure). -/
def pcie_do_nonfatal_recovery (port : Device) (bus : List DevTree)
    (resetRet : Int) (σ0 : StateMap) : RunResult :=
  let devs := devsF bus
  let σ1 := (detectPhase devs σ0).1
  let stm := statusAfterMmio devs σ0
  let pre := nonfatalPreEvents port devs σ0
  if stm = PciErsResult.needReset then
    if resetRet < 0 then
      nonfatalFailed port PciErsResult.disconnect σ1
        (pre ++ [Event.resetBus port.id])
    else
      nonfatalTail port devs (walk_slot devs PciErsResult.recovered) σ1
        (pre ++ [Event.resetBus port.id, Event.dbg port.id Phase.phSlotReset])
  else
    nonfatalTail port devs stm σ1 pre

/-- Modelled from the spec: `pci_dev_set_disconnected` (from
`drivers/pci/pci.h`, not in this snapshot) marks a device
`PERM_FAILURE`; the fatal path applies it to every subtree device. -/
def pci_dev_set_disconnected (cur : ChannelState) : ChannelState :=
  (pci_dev_set_io_state cur ChannelState.permFailure).2

/-- The walk `pci_walk_bus parent pci_dev_set_disconnected`: mark every subtree
device `PERM_FAILURE`, recording one event per device. -/
def walk_disconnect (devs : List Device) (σ : StateMap)
    (evs : List Event) : StateMap × List Event :=
  match devs with
  | [] => (σ, evs)
  | d :: ds =>
      walk_disconnect ds
        (setState σ d.id (pci_dev_set_disconnected (σ d.id)))
        (evs ++ [Event.setDisconnected d.id])

mutual

/-- Modelled from the spec: `pci_stop_and_remove_bus_device` (external to
this snapshot) removes a device and its whole subtree "in reverse
discovery order (children before parents)". -/
def pci_stop_and_remove_bus_device : DevTree → List Event
  | DevTree.node d cs => removeListRev cs ++ [Event.remove d.id]

/-- The `list_for_each_entry_safe_reverse` loop of the fatal path:
iterate a bus's device list in reverse, removing each entry's subtree. -/
def removeListRev : List DevTree → List Event
  | [] => []
  | t :: ts => removeListRev ts ++ pci_stop_and_remove_bus_device t

end

/-- The epilogue events of the fatal path: on a successful reset, rescan
once the bounded link wait succeeds; otherwise a `DISCONNECT` uevent on
the reporting device. -/
def fatalTailEvents (dev udev : Device) (r : PciErsResult)
    (linkUp : Bool) : List Event :=
  if r = PciErsResult.recovered then
    (if linkUp then [Event.rescan udev.id] else [])
  else [Event.uevent dev.id PciErsResult.disconnect]

/-- Function `pcie_do_fatal_recovery` from err.c. `dev` is the reporting device;
`upstream` is `dev->bus->self`, so the acting root `udev` is `dev` itself
when it is a bridge and `upstream` otherwise; `bus` is `udev`'s
subordinate device list; `resetLinkRet` is the return value of the
external `reset_link` primitive and `linkUp` the outcome of the bounded
`pcie_wait_for_link` wait. The bridge status-register clears are external
and not modelled. -/
def pcie_do_fatal_recovery (dev upstream : Device) (bus : List DevTree)
    (resetLinkRet : PciErsResult) (linkUp : Bool) (σ0 : StateMap) :
    RunResult :=
  let udev := if dev.hdr_type = HdrType.bridge then dev else upstream
  let devs := devsF bus
  let m := walk_disconnect devs σ0 []
  { status := resetLinkRet, chan := m.1,
    events := m.2 ++ removeListRev bus ++
      Event.resetLink udev.id :: fatalTailEvents dev udev resetLinkRet linkUp }

/-- Events a non-fatal recovery run may emit: it never removes, marks
disconnected, resets the link, or rescans. -/
def nonfatalEventOk : Event → Prop
  | Event.setDisconnected _ => False
  | Event.remove _ => False
  | Event.resetLink _ => False
  | Event.rescan _ => False
  | _ => True

/-- Shape of events emitted inside an `error_detected` broadcast:
per-device uevents and "can't recover" log lines only. -/
def detectEventShape : Event → Prop
  | Event.uevent _ _ => True
  | Event.logCantRecover _ => True
  | _ => False

/-- Shape of events emitted inside a `resume` broadcast: per-device
uevents and resume records only. -/
def resumeEventShape : Event → Prop
  | Event.uevent _ _ => True
  | Event.resumed _ => True
  | _ => False

/-- Number of `DISCONNECT` uevents in a trace. -/
def countDisconnectUevents (evs : List Event) : Nat :=
  evs.countP (fun e =>
    match e with
    | Event.uevent _ PciErsResult.disconnect => true
    | _ => false)

/-- A fully participating handler set: every callback present,
`error_detected` voting `CAN_RECOVER`, `mmio_enabled` and `slot_reset`
voting `RECOVERED`. -/
def goodEh : PciErrorHandlers :=
  { error_detected := some (fun _ => PciErsResult.canRecover),
    mmio_enabled := some PciErsResult.recovered,
    slot_reset := some PciErsResult.recovered,
    resume := true }

/-- A downstream port acting as recovery root in the examples. -/
def exPort : Device :=
  { id := 0, hdr_type := HdrType.bridge,
    driver := some { err_handler := some goodEh } }

/-- An endpoint with the fully participating handler set. -/
def exEndpointGood : Device :=
  { id := 1, hdr_type := HdrType.endpoint,
    driver := some { err_handler := some goodEh } }

/-- A one-endpoint bus under `exPort`, fully participating. -/
def exBusGood : List DevTree := [DevTree.node exEndpointGood []]

/-- All devices initially `PERM_FAILURE`. -/
def exSigmaPerm : StateMap := fun _ => ChannelState.permFailure

/-- All devices initially `NORMAL`. -/
def exSigmaNormal : StateMap := fun _ => ChannelState.normal

/-- A handler set whose `error_detected` votes `DISCONNECT`. -/
def discEh : PciErrorHandlers :=
  { goodEh with error_detected := some (fun _ => PciErsResult.disconnect) }

/-- An endpoint whose `error_detected` votes `DISCONNECT`. -/
def exEndpointDisc : Device :=
  { id := 2, hdr_type := HdrType.endpoint,
    driver := some { err_handler := some discEh } }

/-- A one-endpoint bus whose device votes `DISCONNECT` on detect. -/
def exBusDisc : List DevTree := [DevTree.node exEndpointDisc []]

/-- A handler set whose `mmio_enabled` votes `NEED_RESET`. -/
def needResetEh : PciErrorHandlers :=
  { goodEh with mmio_enabled := some PciErsResult.needReset }

/-- An endpoint whose `mmio_enabled` votes `NEED_RESET`. -/
def exEndpointNR : Device :=
  { id := 3, hdr_type := HdrType.endpoint,
    driver := some { err_handler := some needResetEh } }

/-- A one-endpoint bus whose device requests a reset at the mmio stage. -/
def exBusNR : List DevTree := [DevTree.node exEndpointNR []]

/-- A bridge with the fully participating handler set, child of the
example fatal root. -/
def exBridgeB : Device :=
  { id := 4, hdr_type := HdrType.bridge,
    driver := some { err_handler := some goodEh } }

/-- An endpoint below `exBridgeB`. -/
def exEndpointC : Device :=
  { id := 5, hdr_type := HdrType.endpoint,
    driver := some { err_handler := some goodEh } }

/-- The bus `A(exPort) -> B(exBridgeB) -> C(exEndpointC)` of the fatal
teardown scenario: `exBridgeB` on the root's bus, `exEndpointC` below. -/
def exBusABC : List DevTree :=
  [DevTree.node exBridgeB [DevTree.node exEndpointC []]]

/-- A device with no bound driver at all. -/
def exNoDriver : Device :=
  { id := 6, hdr_type := HdrType.endpoint, driver := Option.none }

theorem set_io_state_normal (cur : ChannelState) :
    pci_dev_set_io_state cur ChannelState.normal =
      if cur = ChannelState.permFailure then (false, cur)
      else (true, ChannelState.normal) := rfl

theorem report_error_detected_chan (d : Device) (state cur : ChannelState)
    (st : PciErsResult) :
    (report_error_detected d state cur st).1 =
      (pci_dev_set_io_state cur state).2 := by
  unfold report_error_detected
  cases h1 : (pci_dev_set_io_state cur state).1 <;>
    cases h2 : (errHandlerOf d).bind PciErrorHandlers.error_detected <;>
      simp [h1, h2] <;> split <;> rfl

theorem report_resume_chan (d : Device) (cur : ChannelState) :
    (report_resume d cur).1 =
      (pci_dev_set_io_state cur ChannelState.normal).2 := by
  unfold report_resume
  split <;> (dsimp only; split <;> rfl)

theorem detectEventShape_ok (e : Event) (h : detectEventShape e) :
    nonfatalEventOk e := by
  cases e <;> simp_all [detectEventShape, nonfatalEventOk]

theorem resumeEventShape_ok (e : Event) (h : resumeEventShape e) :
    nonfatalEventOk e := by
  cases e <;> simp_all [resumeEventShape, nonfatalEventOk]

theorem report_error_detected_events_ok (d : Device)
    (state cur : ChannelState) (st : PciErsResult) (e : Event)
    (he : e ∈ (report_error_detected d state cur st).2.2) :
    detectEventShape e := by
  unfold report_error_detected at he
  cases h1 : (pci_dev_set_io_state cur state).1 <;>
    cases h2 : (errHandlerOf d).bind PciErrorHandlers.error_detected <;>
      simp only [h1, h2] at he <;>
        (try split at he) <;>
          simp only [List.mem_cons, List.mem_singleton, List.not_mem_nil,
            or_false] at he <;>
            (rcases he with rfl | rfl <;> trivial)

theorem report_resume_events_ok (d : Device) (cur : ChannelState)
    (e : Event) (he : e ∈ (report_resume d cur).2) : resumeEventShape e := by
  unfold report_resume at he
  split at he <;> dsimp only at he <;> split at he <;>
    simp only [List.mem_cons, List.mem_singleton, List.not_mem_nil,
      or_false] at he <;>
      (rcases he with rfl | rfl <;> trivial)

theorem walk_detect_acc (devs : List Device) (state : ChannelState)
    (σ : StateMap) (st : PciErsResult) (evs : List Event) :
    walk_detect devs state σ st evs =
      ((walk_detect devs state σ st []).1,
       (walk_detect devs state σ st []).2.1,
       evs ++ (walk_detect devs state σ st []).2.2) := by
  induction devs generalizing σ st evs with
  | nil => simp [walk_detect]
  | cons d ds ih =>
      simp only [walk_detect, List.nil_append]
      rw [ih (setState σ d.id (report_error_detected d state (σ d.id) st).1)
            (report_error_detected d state (σ d.id) st).2.1
            (evs ++ (report_error_detected d state (σ d.id) st).2.2),
          ih (setState σ d.id (report_error_detected d state (σ d.id) st).1)
            (report_error_detected d state (σ d.id) st).2.1
            ((report_error_detected d state (σ d.id) st).2.2)]
      simp [List.append_assoc]

theorem walk_resume_acc (devs : List Device) (σ : StateMap)
    (evs : List Event) :
    walk_resume devs σ evs =
      ((walk_resume devs σ []).1, evs ++ (walk_resume devs σ []).2) := by
  induction devs generalizing σ evs with
  | nil => simp [walk_resume]
  | cons d ds ih =>
      simp only [walk_resume, List.nil_append]
      rw [ih (setState σ d.id (report_resume d (σ d.id)).1)
            (evs ++ (report_resume d (σ d.id)).2),
          ih (setState σ d.id (report_resume d (σ d.id)).1)
            ((report_resume d (σ d.id)).2)]
      simp [List.append_assoc]

theorem walk_detect_events_ok (devs : List Device) (state : ChannelState)
    (σ : StateMap) (st : PciErsResult) (evs : List Event) (e : Event)
    (he : e ∈ (walk_detect devs state σ st evs).2.2) :
    e ∈ evs ∨ detectEventShape e := by
  induction devs generalizing σ st evs with
  | nil => exact Or.inl he
  | cons d ds ih =>
      rcases ih _ _ _ he with h | h
      · rcases List.mem_append.mp h with h' | h'
        · exact Or.inl h'
        · exact Or.inr (report_error_detected_events_ok d state (σ d.id) st e h')
      · exact Or.inr h

theorem walk_resume_events_ok (devs : List Device) (σ : StateMap)
    (evs : List Event) (e : Event)
    (he : e ∈ (walk_resume devs σ evs).2) :
    e ∈ evs ∨ resumeEventShape e := by
  induction devs generalizing σ evs with
  | nil => exact Or.inl he
  | cons d ds ih =>
      rcases ih _ _ he with h | h
      · rcases List.mem_append.mp h with h' | h'
        · exact Or.inl h'
        · exact Or.inr (report_resume_events_ok d (σ d.id) e h')
      · exact Or.inr h

theorem set_normal_val (cur : ChannelState) :
    (pci_dev_set_io_state cur ChannelState.normal).2 = ChannelState.normal ∨
    (pci_dev_set_io_state cur ChannelState.normal).2 =
      ChannelState.permFailure := by
  cases cur <;> simp [pci_dev_set_io_state]

theorem walk_detect_chan_frame (devs : List Device) (σ : StateMap)
    (st : PciErsResult) (evs : List Event) (j : Nat) :
    (walk_detect devs ChannelState.normal σ st evs).1 j = σ j ∨
    (walk_detect devs ChannelState.normal σ st evs).1 j = ChannelState.normal ∨
    (walk_detect devs ChannelState.normal σ st evs).1 j =
      ChannelState.permFailure := by
  induction devs generalizing σ st evs with
  | nil => exact Or.inl rfl
  | cons d ds ih =>
      simp only [walk_detect]
      rcases ih (setState σ d.id
          (report_error_detected d ChannelState.normal (σ d.id) st).1)
          (report_error_detected d ChannelState.normal (σ d.id) st).2.1
          (evs ++ (report_error_detected d ChannelState.normal (σ d.id) st).2.2)
        with h | h | h
      · rw [h]
        by_cases hj : j = d.id
        · subst hj
          rw [report_error_detected_chan] at *
          simp only [setState, if_pos rfl]
          rcases set_normal_val (σ d.id) with h' | h' <;> simp [h']
        · simp [setState, hj]
      · exact Or.inr (Or.inl h)
      · exact Or.inr (Or.inr h)

theorem walk_detect_chan_mem (devs : List Device) (σ : StateMap)
    (st : PciErsResult) (evs : List Event) (d : Device) (hd : d ∈ devs) :
    (walk_detect devs ChannelState.normal σ st evs).1 d.id =
      ChannelState.normal ∨
    (walk_detect devs ChannelState.normal σ st evs).1 d.id =
      ChannelState.permFailure := by
  induction devs generalizing σ st evs with
  | nil => cases hd
  | cons d0 ds ih =>
      simp only [walk_detect]
      rcases List.mem_cons.mp hd with h | h
      · subst h
        rcases walk_detect_chan_frame ds
            (setState σ d.id
              (report_error_detected d ChannelState.normal (σ d.id) st).1)
            (report_error_detected d ChannelState.normal (σ d.id) st).2.1
            (evs ++ (report_error_detected d ChannelState.normal (σ d.id) st).2.2)
            d.id with h' | h' | h'
        · rw [h', report_error_detected_chan]
          simp only [setState, if_pos rfl]
          exact set_normal_val (σ d.id)
        · exact Or.inl h'
        · exact Or.inr h'
      · exact ih _ _ _ h

theorem walk_resume_chan_frame (devs : List Device) (σ : StateMap)
    (evs : List Event) (j : Nat) :
    (walk_resume devs σ evs).1 j = σ j ∨
    (walk_resume devs σ evs).1 j = ChannelState.normal ∨
    (walk_resume devs σ evs).1 j = ChannelState.permFailure := by
  induction devs generalizing σ evs with
  | nil => exact Or.inl rfl
  | cons d ds ih =>
      simp only [walk_resume]
      rcases ih (setState σ d.id (report_resume d (σ d.id)).1)
          (evs ++ (report_resume d (σ d.id)).2) with h | h | h
      · rw [h]
        by_cases hj : j = d.id
        · subst hj
          rw [report_resume_chan]
          simp only [setState, if_pos rfl]
          rcases set_normal_val (σ d.id) with h' | h' <;> simp [h']
        · simp [setState, hj]
      · exact Or.inr (Or.inl h)
      · exact Or.inr (Or.inr h)

theorem walk_resume_chan_mem (devs : List Device) (σ : StateMap)
    (evs : List Event) (d : Device) (hd : d ∈ devs) :
    (walk_resume devs σ evs).1 d.id = ChannelState.normal ∨
    (walk_resume devs σ evs).1 d.id = ChannelState.permFailure := by
  induction devs generalizing σ evs with
  | nil => cases hd
  | cons d0 ds ih =>
      simp only [walk_resume]
      rcases List.mem_cons.mp hd with h | h
      · subst h
        rcases walk_resume_chan_frame ds
            (setState σ d.id (report_resume d (σ d.id)).1)
            (evs ++ (report_resume d (σ d.id)).2) d.id with h' | h' | h'
        · rw [h', report_resume_chan]
          simp only [setState, if_pos rfl]
          exact set_normal_val (σ d.id)
        · exact Or.inl h'
        · exact Or.inr h'
      · exact ih _ _ h

theorem report_error_detected_good (d : Device)
    (f : ChannelState → PciErsResult) (cur : ChannelState)
    (st : PciErsResult)
    (hf : (errHandlerOf d).bind PciErrorHandlers.error_detected = some f)
    (hc : cur ≠ ChannelState.permFailure) :
    report_error_detected d ChannelState.normal cur st =
      (ChannelState.normal, merge_result st (f ChannelState.normal),
       [Event.uevent d.id (f ChannelState.normal)]) := by
  have hset : pci_dev_set_io_state cur ChannelState.normal =
      (true, ChannelState.normal) := by
    rw [set_io_state_normal, if_neg hc]
  unfold report_error_detected
  simp only [hf, hset]

theorem walk_detect_good (devs : List Device) (σ : StateMap)
    (evs : List Event)
    (hσ : ∀ d ∈ devs, σ d.id ≠ ChannelState.permFailure)
    (hdet : ∀ d ∈ devs, detectVote d = some PciErsResult.canRecover) :
    (walk_detect devs ChannelState.normal σ PciErsResult.canRecover evs).2.1 =
      PciErsResult.canRecover ∧
    (∀ d ∈ devs,
      (walk_detect devs ChannelState.normal σ PciErsResult.canRecover evs).1
        d.id = ChannelState.normal) ∧
    (∀ j,
      (walk_detect devs ChannelState.normal σ PciErsResult.canRecover evs).1
          j = σ j ∨
      (walk_detect devs ChannelState.normal σ PciErsResult.canRecover evs).1
          j = ChannelState.normal) := by
  induction devs generalizing σ evs with
  | nil =>
      refine ⟨rfl, ?_, fun j => Or.inl rfl⟩
      intro d hd; cases hd
  | cons d ds ih =>
      obtain ⟨f, hf, hfv⟩ :=
        Option.map_eq_some'.mp (hdet d (List.mem_cons_self d ds))
      have hrep : report_error_detected d ChannelState.normal (σ d.id)
          PciErsResult.canRecover =
          (ChannelState.normal, PciErsResult.canRecover,
           [Event.uevent d.id PciErsResult.canRecover]) := by
        rw [report_error_detected_good d f (σ d.id) PciErsResult.canRecover hf
              (hσ d (List.mem_cons_self d ds)), hfv]
        rfl
      simp only [walk_detect, hrep]
      have hσ' : ∀ d' ∈ ds,
          setState σ d.id ChannelState.normal d'.id ≠
            ChannelState.permFailure := by
        intro d' hd'
        by_cases hj : d'.id = d.id
        · simp [setState, hj]
        · simpa [setState, hj] using hσ d' (List.mem_cons_of_mem d hd')
      obtain ⟨h1, h2, h3⟩ := ih (setState σ d.id ChannelState.normal)
        (evs ++ [Event.uevent d.id PciErsResult.canRecover]) hσ'
        (fun d' hd' => hdet d' (List.mem_cons_of_mem d hd'))
      refine ⟨h1, ?_, ?_⟩
      · intro d' hd'
        rcases List.mem_cons.mp hd' with h | h
        · subst h
          rcases h3 d'.id with h' | h'
          · rw [h']; simp [setState]
          · exact h'
        · exact h2 d' h
      · intro j
        rcases h3 j with h' | h'
        · rw [h']
          by_cases hj : j = d.id
          · subst hj; simp [setState]
          · simp [setState, hj]
        · exact Or.inr h'

theorem walk_mmio_good (devs : List Device)
    (hmm : ∀ d ∈ devs, mmioVote d = some PciErsResult.recovered) :
    walk_mmio devs PciErsResult.recovered = PciErsResult.recovered := by
  induction devs with
  | nil => rfl
  | cons d ds ih =>
      have hrep : report_mmio_enabled d PciErsResult.recovered =
          PciErsResult.recovered := by
        unfold report_mmio_enabled
        rw [show (errHandlerOf d).bind PciErrorHandlers.mmio_enabled =
              some PciErsResult.recovered from hmm d (List.mem_cons_self d ds)]
        rfl
      simp only [walk_mmio, hrep]
      exact ih (fun d' hd' => hmm d' (List.mem_cons_of_mem d hd'))

theorem walk_resume_good (devs : List Device) (σ : StateMap)
    (evs : List Event)
    (hσ : ∀ d ∈ devs, σ d.id ≠ ChannelState.permFailure) :
    (∀ d ∈ devs, (walk_resume devs σ evs).1 d.id = ChannelState.normal) ∧
    (∀ j, (walk_resume devs σ evs).1 j = σ j ∨
      (walk_resume devs σ evs).1 j = ChannelState.normal) := by
  induction devs generalizing σ evs with
  | nil =>
      refine ⟨?_, fun j => Or.inl rfl⟩
      intro d hd; cases hd
  | cons d ds ih =>
      have hch : (report_resume d (σ d.id)).1 = ChannelState.normal := by
        rw [report_resume_chan, set_io_state_normal,
          if_neg (hσ d (List.mem_cons_self d ds))]
      simp only [walk_resume, hch]
      have hσ' : ∀ d' ∈ ds,
          setState σ d.id ChannelState.normal d'.id ≠
            ChannelState.permFailure := by
        intro d' hd'
        by_cases hj : d'.id = d.id
        · simp [setState, hj]
        · simpa [setState, hj] using hσ d' (List.mem_cons_of_mem d hd')
      obtain ⟨h2, h3⟩ := ih (setState σ d.id ChannelState.normal)
        (evs ++ (report_resume d (σ d.id)).2) hσ'
      refine ⟨?_, ?_⟩
      · intro d' hd'
        rcases List.mem_cons.mp hd' with h | h
        · subst h
          rcases h3 d'.id with h' | h'
          · rw [h']; simp [setState]
          · exact h'
        · exact h2 d' h
      · intro j
        rcases h3 j with h' | h'
        · rw [h']
          by_cases hj : j = d.id
          · subst hj; simp [setState]
          · simp [setState, hj]
        · exact Or.inr h'

theorem pci_dev_set_disconnected_val (cur : ChannelState) :
    pci_dev_set_disconnected cur = ChannelState.permFailure := rfl

theorem walk_disconnect_events (devs : List Device) (σ : StateMap)
    (evs : List Event) :
    (walk_disconnect devs σ evs).2 =
      evs ++ devs.map (fun d => Event.setDisconnected d.id) := by
  induction devs generalizing σ evs with
  | nil => simp [walk_disconnect]
  | cons d ds ih =>
      simp only [walk_disconnect, List.map_cons]
      rw [ih]
      simp

theorem walk_disconnect_chan_frame (devs : List Device) (σ : StateMap)
    (evs : List Event) (j : Nat) :
    (walk_disconnect devs σ evs).1 j = σ j ∨
    (walk_disconnect devs σ evs).1 j = ChannelState.permFailure := by
  induction devs generalizing σ evs with
  | nil => exact Or.inl rfl
  | cons d ds ih =>
      simp only [walk_disconnect]
      rcases ih (setState σ d.id (pci_dev_set_disconnected (σ d.id)))
          (evs ++ [Event.setDisconnected d.id]) with h | h
      · rw [h]
        by_cases hj : j = d.id
        · subst hj
          simp [setState, pci_dev_set_disconnected_val]
        · simp [setState, hj]
      · exact Or.inr h

theorem walk_disconnect_chan_mem (devs : List Device) (σ : StateMap)
    (evs : List Event) (d : Device) (hd : d ∈ devs) :
    (walk_disconnect devs σ evs).1 d.id = ChannelState.permFailure := by
  induction devs generalizing σ evs with
  | nil => cases hd
  | cons d0 ds ih =>
      simp only [walk_disconnect]
      rcases List.mem_cons.mp hd with h | h
      · subst h
        rcases walk_disconnect_chan_frame ds
            (setState σ d.id (pci_dev_set_disconnected (σ d.id)))
            (evs ++ [Event.setDisconnected d.id]) d.id with h' | h'
        · rw [h']
          simp [setState, pci_dev_set_disconnected_val]
        · exact h'
      · exact ih _ _ h

theorem root_mem_devsT (t : DevTree) : rootDev t ∈ devsT t := by
  cases t with
  | node d cs => simp [devsT, rootDev]

theorem root_mem_devsF (ts : List DevTree) (t : DevTree) (h : t ∈ ts) :
    rootDev t ∈ devsF ts := by
  induction ts with
  | nil => cases h
  | cons t0 ts' ih =>
      rcases List.mem_cons.mp h with h' | h'
      · subst h'
        exact List.mem_append_left _ (root_mem_devsT t)
      · exact List.mem_append_right _ (ih h')

mutual

theorem removeT_eq (t : DevTree) :
    pci_stop_and_remove_bus_device t =
      ((devsT t).reverse).map (fun d => Event.remove d.id) := by
  cases t with
  | node d cs =>
      rw [pci_stop_and_remove_bus_device, removeF_eq cs, devsT]
      simp

theorem removeF_eq (ts : List DevTree) :
    removeListRev ts =
      ((devsF ts).reverse).map (fun d => Event.remove d.id) := by
  cases ts with
  | nil => rfl
  | cons t ts' =>
      rw [removeListRev, removeT_eq t, removeF_eq ts', devsF]
      simp

end

mutual

theorem pairsT_sub (t : DevTree) (p c : Nat)
    (h : (p, c) ∈ childIdPairsT t) :
    List.Sublist [p, c] ((devsT t).map Device.id) := by
  cases t with
  | node d cs =>
      rw [childIdPairsT] at h
      rcases List.mem_append.mp h with h' | h'
      · obtain ⟨t', ht', heq⟩ := List.mem_map.mp h'
        have hp : p = d.id := (Prod.ext_iff.mp heq.symm).1
        have hc : c = (rootDev t').id := (Prod.ext_iff.mp heq.symm).2
        subst hp; subst hc
        rw [devsT, List.map_cons]
        exact List.Sublist.cons₂ _ (List.singleton_sublist.mpr
          (List.mem_map_of_mem _ (root_mem_devsF cs t' ht')))
      · exact List.Sublist.trans (pairsF_sub cs p c h')
          (by rw [devsT, List.map_cons]; exact List.sublist_cons_self _ _)

theorem pairsF_sub (ts : List DevTree) (p c : Nat)
    (h : (p, c) ∈ childIdPairsF ts) :
    List.Sublist [p, c] ((devsF ts).map Device.id) := by
  cases ts with
  | nil => cases h
  | cons t ts' =>
      rw [childIdPairsF] at h
      rcases List.mem_append.mp h with h' | h'
      · exact (pairsT_sub t p c h').trans
          (by rw [devsF, List.map_append]; exact List.sublist_append_left _ _)
      · exact (pairsF_sub ts' p c h').trans
          (by rw [devsF, List.map_append]; exact List.sublist_append_right _ _)

end

/-- C4: an incoming `NO_DRIVER` (`PCI_ERS_RESULT_NO_AER_DRIVER`) vote
absorbs any current merged vote: `merge(v, NO_DRIVER) = NO_DRIVER`. -/
theorem merge_noAerDriver_absorbs (v : PciErsResult) :
    merge_result v PciErsResult.noAerDriver = PciErsResult.noAerDriver := by
  cases v <;> rfl

/-- C9: an incoming `NONE` vote is an abstention leaving the current
merged vote unchanged: `merge(v, NONE) = v`. -/
theorem merge_none_abstains (v : PciErsResult) :
    merge_result v PciErsResult.none = v := by
  cases v <;> rfl

/-- C5: when the incoming vote is neither `NONE` nor `NO_DRIVER`: a
current vote of `CAN_RECOVER` or `RECOVERED` is overridden by the
incoming vote; a current `DISCONNECT` is promoted to `NEED_RESET` exactly
when the incoming vote is `NEED_RESET` and stays `DISCONNECT` otherwise
(in particular `merge(DISCONNECT, CAN_RECOVER) = DISCONNECT`); any other
current vote is returned unchanged. -/
theorem merge_mid_votes (orig new : PciErsResult)
    (h1 : new ≠ PciErsResult.none) (h2 : new ≠ PciErsResult.noAerDriver) :
    ((orig = PciErsResult.canRecover ∨ orig = PciErsResult.recovered) →
      merge_result orig new = new) ∧
    (orig = PciErsResult.disconnect →
      merge_result orig new =
        (if new = PciErsResult.needReset then PciErsResult.needReset
         else PciErsResult.disconnect)) ∧
    ((orig = PciErsResult.none ∨ orig = PciErsResult.needReset ∨
      orig = PciErsResult.noAerDriver) → merge_result orig new = orig) := by
  cases orig <;> cases new <;> simp_all [merge_result]

/-- Witness for `merge_mid_votes` at `orig = DISCONNECT`,
`new = CAN_RECOVER`. -/
theorem merge_mid_votes_witness :
    PciErsResult.canRecover ≠ PciErsResult.none ∧
    PciErsResult.canRecover ≠ PciErsResult.noAerDriver ∧
    (((PciErsResult.disconnect = PciErsResult.canRecover ∨
       PciErsResult.disconnect = PciErsResult.recovered) →
      merge_result PciErsResult.disconnect PciErsResult.canRecover =
        PciErsResult.canRecover) ∧
    (PciErsResult.disconnect = PciErsResult.disconnect →
      merge_result PciErsResult.disconnect PciErsResult.canRecover =
        (if PciErsResult.canRecover = PciErsResult.needReset then
           PciErsResult.needReset
         else PciErsResult.disconnect)) ∧
    ((PciErsResult.disconnect = PciErsResult.none ∨
      PciErsResult.disconnect = PciErsResult.needReset ∨
      PciErsResult.disconnect = PciErsResult.noAerDriver) →
      merge_result PciErsResult.disconnect PciErsResult.canRecover =
        PciErsResult.disconnect)) :=
  ⟨by decide, by decide,
   merge_mid_votes PciErsResult.disconnect PciErsResult.canRecover
     (by decide) (by decide)⟩

/-- C3: in the `error_detected` phase, a device whose driver chain lacks
an `error_detected` callback contributes `NO_DRIVER` and logs the "can't
recover" line when it is not a bridge, and contributes `NONE` when it is
a bridge. -/
theorem detect_missing_handler_votes (d : Device) (state cur : ChannelState)
    (st : PciErsResult)
    (h : (errHandlerOf d).bind PciErrorHandlers.error_detected = Option.none) :
    (d.hdr_type ≠ HdrType.bridge →
      report_error_detected d state cur st =
        ((pci_dev_set_io_state cur state).2,
         merge_result st PciErsResult.noAerDriver,
         [Event.logCantRecover d.id,
          Event.uevent d.id PciErsResult.noAerDriver])) ∧
    (d.hdr_type = HdrType.bridge →
      report_error_detected d state cur st =
        ((pci_dev_set_io_state cur state).2,
         merge_result st PciErsResult.none,
         [Event.uevent d.id PciErsResult.none])) := by
  constructor <;> intro hb <;> unfold report_error_detected <;>
    cases h1 : (pci_dev_set_io_state cur state).1 <;>
      simp [h, h1, hb]

/-- Witness for `detect_missing_handler_votes`: the driverless endpoint
`exNoDriver` at channel state `NORMAL` with running vote `CAN_RECOVER`. -/
theorem detect_missing_handler_votes_witness :
    ((errHandlerOf exNoDriver).bind PciErrorHandlers.error_detected =
      Option.none) ∧
    ((exNoDriver.hdr_type ≠ HdrType.bridge →
      report_error_detected exNoDriver ChannelState.normal ChannelState.normal
          PciErsResult.canRecover =
        ((pci_dev_set_io_state ChannelState.normal ChannelState.normal).2,
         merge_result PciErsResult.canRecover PciErsResult.noAerDriver,
         [Event.logCantRecover exNoDriver.id,
          Event.uevent exNoDriver.id PciErsResult.noAerDriver])) ∧
     (exNoDriver.hdr_type = HdrType.bridge →
      report_error_detected exNoDriver ChannelState.normal ChannelState.normal
          PciErsResult.canRecover =
        ((pci_dev_set_io_state ChannelState.normal ChannelState.normal).2,
         merge_result PciErsResult.canRecover PciErsResult.none,
         [Event.uevent exNoDriver.id PciErsResult.none]))) :=
  ⟨rfl, detect_missing_handler_votes exNoDriver ChannelState.normal
    ChannelState.normal PciErsResult.canRecover rfl⟩

/-- C2 as stated is false: a non-bridge device whose io-state set fails
(already `PERM_FAILURE`) does contribute a vote — the running merged
vote `CAN_RECOVER` is changed to `NO_DRIVER` by its visit, even though
the device has a full `error_detected` handler. -/
theorem detect_perm_failure_as_stated_false :
    (report_error_detected exEndpointGood ChannelState.normal
        ChannelState.permFailure PciErsResult.canRecover).2.1 ≠
      PciErsResult.canRecover := by decide

/-- C2 (amended): when a visited device's channel-state set fails because
the device was already `PERM_FAILURE`, its channel state is unchanged and
the broadcast continues to the remaining devices; a bridge device then
contributes no vote (the running merged vote is unchanged), but a
non-bridge device contributes `NO_DRIVER`, absorbing the running vote. -/
theorem detect_perm_failure_vote (d : Device) (ds : List Device)
    (state : ChannelState) (σ : StateMap) (st : PciErsResult)
    (evs : List Event)
    (hs : state ≠ ChannelState.permFailure)
    (h : σ d.id = ChannelState.permFailure) :
    (report_error_detected d state (σ d.id) st).1 =
      ChannelState.permFailure ∧
    (d.hdr_type = HdrType.bridge →
      (report_error_detected d state (σ d.id) st).2.1 = st) ∧
    (d.hdr_type ≠ HdrType.bridge →
      (report_error_detected d state (σ d.id) st).2.1 =
        PciErsResult.noAerDriver) ∧
    walk_detect (d :: ds) state σ st evs =
      walk_detect ds state
        (setState σ d.id (report_error_detected d state (σ d.id) st).1)
        (report_error_detected d state (σ d.id) st).2.1
        (evs ++ (report_error_detected d state (σ d.id) st).2.2) := by
  have hset : pci_dev_set_io_state (σ d.id) state =
      (false, ChannelState.permFailure) := by
    rw [h]
    cases state with
    | permFailure => exact absurd rfl hs
    | normal => rfl
    | frozen => rfl
  refine ⟨?_, ?_, ?_, rfl⟩
  · rw [report_error_detected_chan, hset]
  · intro hb
    unfold report_error_detected
    simp [hset, hb, merge_result]
  · intro hb
    unfold report_error_detected
    simp [hset, hb, merge_result]

/-- Witness for `detect_perm_failure_vote`: `exEndpointGood` visited
while `PERM_FAILURE`, with running vote `CAN_RECOVER`. -/
theorem detect_perm_failure_vote_witness :
    (ChannelState.normal ≠ ChannelState.permFailure) ∧
    (exSigmaPerm exEndpointGood.id = ChannelState.permFailure) ∧
    ((report_error_detected exEndpointGood ChannelState.normal
        (exSigmaPerm exEndpointGood.id) PciErsResult.canRecover).1 =
      ChannelState.permFailure ∧
    (exEndpointGood.hdr_type = HdrType.bridge →
      (report_error_detected exEndpointGood ChannelState.normal
        (exSigmaPerm exEndpointGood.id) PciErsResult.canRecover).2.1 =
        PciErsResult.canRecover) ∧
    (exEndpointGood.hdr_type ≠ HdrType.bridge →
      (report_error_detected exEndpointGood ChannelState.normal
        (exSigmaPerm exEndpointGood.id) PciErsResult.canRecover).2.1 =
        PciErsResult.noAerDriver) ∧
    walk_detect [exEndpointGood] ChannelState.normal exSigmaPerm
        PciErsResult.canRecover [] =
      walk_detect [] ChannelState.normal
        (setState exSigmaPerm exEndpointGood.id
          (report_error_detected exEndpointGood ChannelState.normal
            (exSigmaPerm exEndpointGood.id) PciErsResult.canRecover).1)
        (report_error_detected exEndpointGood ChannelState.normal
          (exSigmaPerm exEndpointGood.id) PciErsResult.canRecover).2.1
        ([] ++ (report_error_detected exEndpointGood ChannelState.normal
          (exSigmaPerm exEndpointGood.id) PciErsResult.canRecover).2.2)) :=
  ⟨by decide, rfl,
   detect_perm_failure_vote exEndpointGood [] ChannelState.normal exSigmaPerm
     PciErsResult.canRecover [] (by decide) rfl⟩

/-- C1 as stated is false: in a subtree whose single (non-bridge) device
has a full handler voting `CAN_RECOVER` / `RECOVERED`, but whose channel
state is already `PERM_FAILURE`, the run does not end `RECOVERED` with
all-normal channel states — the io-state set failure makes the device
vote `NO_DRIVER` and the run fails. -/
theorem nonfatal_success_as_stated_false :
    (∀ d ∈ devsF exBusGood,
      detectVote d = some PciErsResult.canRecover ∧
      mmioVote d = some PciErsResult.recovered) ∧
    ¬ ((pcie_do_nonfatal_recovery exPort exBusGood 0 exSigmaPerm).status =
        PciErsResult.recovered ∧
       ∀ d ∈ devsF exBusGood,
         (pcie_do_nonfatal_recovery exPort exBusGood 0 exSigmaPerm).chan
           d.id = ChannelState.normal) := by decide

/-- C1 (amended): for every subtree in which no device is already
`PERM_FAILURE`, each device has a bound handler whose `error_detected`
returns `CAN_RECOVER` and whose `mmio_enabled` returns `RECOVERED`, the
non-fatal orchestrator runs the `error_detected` broadcast (initial vote
`CAN_RECOVER`), then the `mmio_enabled` broadcast (initial vote
`RECOVERED`), then the `resume` broadcast, returns final vote
`RECOVERED`, and leaves every device's channel state `NORMAL`. -/
theorem nonfatal_success_path (port : Device) (bus : List DevTree)
    (resetRet : Int) (σ0 : StateMap)
    (hσ : ∀ d ∈ devsF bus, σ0 d.id ≠ ChannelState.permFailure)
    (hdet : ∀ d ∈ devsF bus, detectVote d = some PciErsResult.canRecover)
    (hmm : ∀ d ∈ devsF bus, mmioVote d = some PciErsResult.recovered) :
    (pcie_do_nonfatal_recovery port bus resetRet σ0).status =
      PciErsResult.recovered ∧
    (detectPhase (devsF bus) σ0).2.1 = PciErsResult.canRecover ∧
    statusAfterMmio (devsF bus) σ0 = PciErsResult.recovered ∧
    (∀ d ∈ devsF bus,
      (pcie_do_nonfatal_recovery port bus resetRet σ0).chan d.id =
        ChannelState.normal) ∧
    (pcie_do_nonfatal_recovery port bus resetRet σ0).events =
      Event.dbg port.id Phase.phDetect ::
        ((detectPhase (devsF bus) σ0).2.2 ++
          Event.dbg port.id Phase.phMmio ::
            Event.dbg port.id Phase.phResume ::
              (walk_resume (devsF bus) (detectPhase (devsF bus) σ0).1 []).2) := by
  obtain ⟨hst, hmem, hfr⟩ := walk_detect_good (devsF bus) σ0 [] hσ hdet
  have hdp : (detectPhase (devsF bus) σ0).2.1 = PciErsResult.canRecover := hst
  have hsm : statusAfterMmio (devsF bus) σ0 = PciErsResult.recovered := by
    unfold statusAfterMmio
    rw [hdp, if_pos rfl]
    exact walk_mmio_good _ hmm
  have hpre : nonfatalPreEvents port (devsF bus) σ0 =
      (Event.dbg port.id Phase.phDetect :: (detectPhase (devsF bus) σ0).2.2) ++
        [Event.dbg port.id Phase.phMmio] := by
    unfold nonfatalPreEvents
    dsimp only
    rw [hdp, if_pos rfl]
  have hσ1 : ∀ d ∈ devsF bus,
      (detectPhase (devsF bus) σ0).1 d.id ≠ ChannelState.permFailure := by
    intro d hd
    unfold detectPhase
    rw [hmem d hd]
    decide
  obtain ⟨hrm, hrf⟩ := walk_resume_good (devsF bus) (detectPhase (devsF bus) σ0).1
    (nonfatalPreEvents port (devsF bus) σ0 ++ [Event.dbg port.id Phase.phResume])
    hσ1
  have hrun : pcie_do_nonfatal_recovery port bus resetRet σ0 =
      { status := PciErsResult.recovered,
        chan := (walk_resume (devsF bus) (detectPhase (devsF bus) σ0).1
          (nonfatalPreEvents port (devsF bus) σ0 ++
            [Event.dbg port.id Phase.phResume])).1,
        events := (walk_resume (devsF bus) (detectPhase (devsF bus) σ0).1
          (nonfatalPreEvents port (devsF bus) σ0 ++
            [Event.dbg port.id Phase.phResume])).2 } := by
    unfold pcie_do_nonfatal_recovery
    dsimp only
    rw [hsm]
    unfold nonfatalTail
    simp
  refine ⟨by rw [hrun], hdp, hsm, ?_, ?_⟩
  · intro d hd
    rw [hrun]
    exact hrm d hd
  · rw [hrun]
    show (walk_resume (devsF bus) (detectPhase (devsF bus) σ0).1
      (nonfatalPreEvents port (devsF bus) σ0 ++
        [Event.dbg port.id Phase.phResume])).2 = _
    rw [walk_resume_acc, hpre]
    simp

/-- Witness for `nonfatal_success_path`: the fully participating
one-endpoint bus starting from all-`NORMAL` states. -/
theorem nonfatal_success_path_witness :
    (∀ d ∈ devsF exBusGood,
      exSigmaNormal d.id ≠ ChannelState.permFailure) ∧
    (∀ d ∈ devsF exBusGood,
      detectVote d = some PciErsResult.canRecover) ∧
    (∀ d ∈ devsF exBusGood,
      mmioVote d = some PciErsResult.recovered) ∧
    ((pcie_do_nonfatal_recovery exPort exBusGood 0 exSigmaNormal).status =
      PciErsResult.recovered ∧
    (detectPhase (devsF exBusGood) exSigmaNormal).2.1 =
      PciErsResult.canRecover ∧
    statusAfterMmio (devsF exBusGood) exSigmaNormal =
      PciErsResult.recovered ∧
    (∀ d ∈ devsF exBusGood,
      (pcie_do_nonfatal_recovery exPort exBusGood 0 exSigmaNormal).chan
        d.id = ChannelState.normal) ∧
    (pcie_do_nonfatal_recovery exPort exBusGood 0 exSigmaNormal).events =
      Event.dbg exPort.id Phase.phDetect ::
        ((detectPhase (devsF exBusGood) exSigmaNormal).2.2 ++
          Event.dbg exPort.id Phase.phMmio ::
            Event.dbg exPort.id Phase.phResume ::
              (walk_resume (devsF exBusGood)
                (detectPhase (devsF exBusGood) exSigmaNormal).1 []).2)) :=
  ⟨by decide, by decide, by decide,
   nonfatal_success_path exPort exBusGood 0 exSigmaNormal
     (by decide) (by decide) (by decide)⟩

/-- Events through the detect/mmio stages are the two phase markers and
detect broadcast events. -/
theorem nonfatalPreEvents_shape (port : Device) (devs : List Device)
    (σ0 : StateMap) (e : Event)
    (he : e ∈ nonfatalPreEvents port devs σ0) :
    e = Event.dbg port.id Phase.phDetect ∨
    e = Event.dbg port.id Phase.phMmio ∨ detectEventShape e := by
  unfold nonfatalPreEvents at he
  dsimp only at he
  split at he <;>
    simp only [List.mem_append, List.mem_cons, List.mem_singleton,
      List.not_mem_nil, or_false] at he
  · rcases he with (rfl | h) | rfl
    · exact Or.inl rfl
    · rcases walk_detect_events_ok devs ChannelState.normal σ0
        PciErsResult.canRecover [] e h with h' | h'
      · cases h'
      · exact Or.inr (Or.inr h')
    · exact Or.inr (Or.inl rfl)
  · rcases he with rfl | h
    · exact Or.inl rfl
    · rcases walk_detect_events_ok devs ChannelState.normal σ0
        PciErsResult.canRecover [] e h with h' | h'
      · cases h'
      · exact Or.inr (Or.inr h')

/-- Anything in the accumulator is in the events of the tail stage. -/
theorem nonfatalTail_events_mem (port : Device) (devs : List Device)
    (st : PciErsResult) (σ : StateMap) (evs : List Event) (e : Event)
    (he : e ∈ evs) : e ∈ (nonfatalTail port devs st σ evs).events := by
  unfold nonfatalTail
  split
  · dsimp only
    rw [walk_resume_acc]
    exact List.mem_append_left _ (List.mem_append_left _ he)
  · unfold nonfatalFailed
    exact List.mem_append_left _ he

/-- A non-fatal run either fails, returning the post-detect channel map
untouched with one trailing port `DISCONNECT` uevent, or succeeds through
the resume broadcast; the accumulated pre-resume events obey the
non-fatal event discipline in both cases. -/
theorem nonfatal_run_cases (port : Device) (bus : List DevTree)
    (resetRet : Int) (σ0 : StateMap) :
    (∃ st evs, pcie_do_nonfatal_recovery port bus resetRet σ0 =
        nonfatalFailed port st (detectPhase (devsF bus) σ0).1 evs ∧
        st ≠ PciErsResult.recovered ∧
        (∀ e ∈ evs, nonfatalEventOk e)) ∨
    (∃ evs, pcie_do_nonfatal_recovery port bus resetRet σ0 =
        { status := PciErsResult.recovered,
          chan := (walk_resume (devsF bus)
            (detectPhase (devsF bus) σ0).1 evs).1,
          events := (walk_resume (devsF bus)
            (detectPhase (devsF bus) σ0).1 evs).2 } ∧
        (∀ e ∈ evs, nonfatalEventOk e)) := by
  have hpre : ∀ e ∈ nonfatalPreEvents port (devsF bus) σ0,
      nonfatalEventOk e := by
    intro e he
    rcases nonfatalPreEvents_shape port (devsF bus) σ0 e he with rfl | rfl | h
    · trivial
    · trivial
    · exact detectEventShape_ok e h
  unfold pcie_do_nonfatal_recovery
  dsimp only
  split
  · split
    · left
      refine ⟨PciErsResult.disconnect, _, rfl, by decide, ?_⟩
      intro e he
      rcases List.mem_append.mp he with h' | h'
      · exact hpre e h'
      · simp only [List.mem_singleton] at h'
        subst h'; trivial
    · unfold nonfatalTail
      split
      · right
        rename_i hst
        refine ⟨nonfatalPreEvents port (devsF bus) σ0 ++
          [Event.resetBus port.id, Event.dbg port.id Phase.phSlotReset] ++
          [Event.dbg port.id Phase.phResume], ?_, ?_⟩
        · dsimp only
          rw [hst]
        · intro e he
          rcases List.mem_append.mp he with h' | h'
          · rcases List.mem_append.mp h' with h'' | h''
            · exact hpre e h''
            · simp only [List.mem_cons, List.mem_singleton,
                List.not_mem_nil, or_false] at h''
              rcases h'' with rfl | rfl <;> trivial
          · simp only [List.mem_singleton] at h'
            subst h'; trivial
      · left
        rename_i hst
        refine ⟨_, _, rfl, hst, ?_⟩
        intro e he
        rcases List.mem_append.mp he with h' | h'
        · exact hpre e h'
        · simp only [List.mem_cons, List.mem_singleton,
            List.not_mem_nil, or_false] at h'
          rcases h' with rfl | rfl <;> trivial
  · unfold nonfatalTail
    split
    · right
      rename_i hst
      refine ⟨nonfatalPreEvents port (devsF bus) σ0 ++
        [Event.dbg port.id Phase.phResume], ?_, ?_⟩
      · dsimp only
        rw [hst]
      · intro e he
        rcases List.mem_append.mp he with h' | h'
        · exact hpre e h'
        · simp only [List.mem_singleton] at h'
          subst h'; trivial
    · left
      rename_i hst
      exact ⟨_, _, rfl, hst, hpre⟩

/-- C10: the non-fatal orchestrator's `error_detected` broadcast visits
every device with channel-state argument `pci_channel_io_normal` (that is
what `report_normal_detected` passes), and for any input subtree and any
initial states it never leaves a subtree device `FROZEN`. -/
theorem nonfatal_never_frozen (port : Device) (bus : List DevTree)
    (resetRet : Int) (σ0 : StateMap) (d : Device) (hd : d ∈ devsF bus) :
    (∀ cur st, report_normal_detected d cur st =
        report_error_detected d ChannelState.normal cur st) ∧
    (pcie_do_nonfatal_recovery port bus resetRet σ0).chan d.id ≠
      ChannelState.frozen := by
  refine ⟨fun cur st => rfl, ?_⟩
  rcases nonfatal_run_cases port bus resetRet σ0 with
    ⟨st, evs, heq, _, _⟩ | ⟨evs, heq, _⟩
  · rw [heq]
    show (detectPhase (devsF bus) σ0).1 d.id ≠ ChannelState.frozen
    rcases walk_detect_chan_mem (devsF bus) σ0 PciErsResult.canRecover []
        d hd with h | h
    · show (walk_detect (devsF bus) ChannelState.normal σ0
        PciErsResult.canRecover []).1 d.id ≠ ChannelState.frozen
      rw [h]; decide
    · show (walk_detect (devsF bus) ChannelState.normal σ0
        PciErsResult.canRecover []).1 d.id ≠ ChannelState.frozen
      rw [h]; decide
  · rw [heq]
    show (walk_resume (devsF bus) (detectPhase (devsF bus) σ0).1 evs).1
        d.id ≠ ChannelState.frozen
    rcases walk_resume_chan_mem (devsF bus) (detectPhase (devsF bus) σ0).1
        evs d hd with h | h
    · rw [h]; decide
    · rw [h]; decide

/-- Witness for `nonfatal_never_frozen`: the good endpoint on the good
bus. -/
theorem nonfatal_never_frozen_witness :
    exEndpointGood ∈ devsF exBusGood ∧
    ((∀ cur st, report_normal_detected exEndpointGood cur st =
        report_error_detected exEndpointGood ChannelState.normal cur st) ∧
    (pcie_do_nonfatal_recovery exPort exBusGood 0 exSigmaNormal).chan
        exEndpointGood.id ≠ ChannelState.frozen) :=
  ⟨by simp [exBusGood, devsF, devsT],
   nonfatal_never_frozen exPort exBusGood 0 exSigmaNormal exEndpointGood
     (by simp [exBusGood, devsF, devsT])⟩

/-- C8 as stated is false: on the failure path the whole trace can hold
two `DISCONNECT` notifications, because the per-device vote uevent of a
device whose handler votes `DISCONNECT` also carries `DISCONNECT`; the
count is not exactly one. -/
theorem nonfatal_failed_as_stated_false :
    (pcie_do_nonfatal_recovery exPort exBusDisc 0 exSigmaNormal).status ≠
      PciErsResult.recovered ∧
    countDisconnectUevents
      (pcie_do_nonfatal_recovery exPort exBusDisc 0 exSigmaNormal).events ≠
      1 := by decide

/-- C8 (amended): on the non-fatal failure path the run appends exactly
one trailing port `DISCONNECT` notification after the last completed
broadcast (per-device vote notifications inside the broadcasts may also
carry `DISCONNECT`), performs no further channel-state mutation — the
final channel map is exactly the post-detect map — and never disconnects
or removes a device. -/
theorem nonfatal_failed_frame (port : Device) (bus : List DevTree)
    (resetRet : Int) (σ0 : StateMap)
    (h : (pcie_do_nonfatal_recovery port bus resetRet σ0).status ≠
      PciErsResult.recovered) :
    (∀ j, (pcie_do_nonfatal_recovery port bus resetRet σ0).chan j =
      (detectPhase (devsF bus) σ0).1 j) ∧
    (∃ pre, (pcie_do_nonfatal_recovery port bus resetRet σ0).events =
      pre ++ [Event.uevent port.id PciErsResult.disconnect]) ∧
    (∀ i, Event.remove i ∉
      (pcie_do_nonfatal_recovery port bus resetRet σ0).events) ∧
    (∀ i, Event.setDisconnected i ∉
      (pcie_do_nonfatal_recovery port bus resetRet σ0).events) := by
  rcases nonfatal_run_cases port bus resetRet σ0 with
    ⟨st, evs, heq, hne, hok⟩ | ⟨evs, heq, hok⟩
  · rw [heq]
    refine ⟨fun j => rfl, ⟨evs, rfl⟩, ?_, ?_⟩
    · intro i hi
      rcases List.mem_append.mp hi with h' | h'
      · exact hok _ h'
      · simp at h'
    · intro i hi
      rcases List.mem_append.mp hi with h' | h'
      · exact hok _ h'
      · simp at h'
  · rw [heq] at h
    exact absurd rfl h

/-- Witness for `nonfatal_failed_frame`: the disconnect-voting bus. -/
theorem nonfatal_failed_frame_witness :
    ((pcie_do_nonfatal_recovery exPort exBusDisc 0 exSigmaNormal).status ≠
      PciErsResult.recovered) ∧
    ((∀ j, (pcie_do_nonfatal_recovery exPort exBusDisc 0 exSigmaNormal).chan
        j = (detectPhase (devsF exBusDisc) exSigmaNormal).1 j) ∧
    (∃ pre,
      (pcie_do_nonfatal_recovery exPort exBusDisc 0 exSigmaNormal).events =
        pre ++ [Event.uevent exPort.id PciErsResult.disconnect]) ∧
    (∀ i, Event.remove i ∉
      (pcie_do_nonfatal_recovery exPort exBusDisc 0 exSigmaNormal).events) ∧
    (∀ i, Event.setDisconnected i ∉
      (pcie_do_nonfatal_recovery exPort exBusDisc 0 exSigmaNormal).events)) :=
  ⟨by decide,
   nonfatal_failed_frame exPort exBusDisc 0 exSigmaNormal (by decide)⟩

/-- C6: when the running vote after the detect/mmio stages is
`NEED_RESET`, the external bus-reset primitive is invoked; on failure
(negative return) the run goes to the failed state with final vote forced
to `DISCONNECT`, broadcasting neither `slot_reset` nor `resume`; on
success the `slot_reset` broadcast runs with initial vote `RECOVERED`. -/
theorem nonfatal_reset_stage (port : Device) (bus : List DevTree)
    (resetRet : Int) (σ0 : StateMap)
    (h : statusAfterMmio (devsF bus) σ0 = PciErsResult.needReset) :
    Event.resetBus port.id ∈
      (pcie_do_nonfatal_recovery port bus resetRet σ0).events ∧
    (resetRet < 0 →
      pcie_do_nonfatal_recovery port bus resetRet σ0 =
        nonfatalFailed port PciErsResult.disconnect
          (detectPhase (devsF bus) σ0).1
          (nonfatalPreEvents port (devsF bus) σ0 ++
            [Event.resetBus port.id]) ∧
      (pcie_do_nonfatal_recovery port bus resetRet σ0).status =
        PciErsResult.disconnect ∧
      Event.dbg port.id Phase.phSlotReset ∉
        (pcie_do_nonfatal_recovery port bus resetRet σ0).events ∧
      Event.dbg port.id Phase.phResume ∉
        (pcie_do_nonfatal_recovery port bus resetRet σ0).events) ∧
    (0 ≤ resetRet →
      pcie_do_nonfatal_recovery port bus resetRet σ0 =
        nonfatalTail port (devsF bus)
          (walk_slot (devsF bus) PciErsResult.recovered)
          (detectPhase (devsF bus) σ0).1
          (nonfatalPreEvents port (devsF bus) σ0 ++
            [Event.resetBus port.id, Event.dbg port.id Phase.phSlotReset])) := by
  have hrun : pcie_do_nonfatal_recovery port bus resetRet σ0 =
      (if resetRet < 0 then
        nonfatalFailed port PciErsResult.disconnect
          (detectPhase (devsF bus) σ0).1
          (nonfatalPreEvents port (devsF bus) σ0 ++
            [Event.resetBus port.id])
      else
        nonfatalTail port (devsF bus)
          (walk_slot (devsF bus) PciErsResult.recovered)
          (detectPhase (devsF bus) σ0).1
          (nonfatalPreEvents port (devsF bus) σ0 ++
            [Event.resetBus port.id, Event.dbg port.id Phase.phSlotReset])) := by
    unfold pcie_do_nonfatal_recovery
    dsimp only
    rw [h, if_pos rfl]
  have hnodbg : ∀ p' : Phase, p' ≠ Phase.phDetect → p' ≠ Phase.phMmio →
      Event.dbg port.id p' ∉
        (nonfatalPreEvents port (devsF bus) σ0 ++
          [Event.resetBus port.id] ++
          [Event.uevent port.id PciErsResult.disconnect]) := by
    intro p' h1 h2 hin
    rcases List.mem_append.mp hin with hin' | hin'
    · rcases List.mem_append.mp hin' with hin'' | hin''
      · rcases nonfatalPreEvents_shape port (devsF bus) σ0 _ hin'' with
          he | he | he
        · exact h1 (by injection he)
        · exact h2 (by injection he)
        · cases he
      · simp at hin''
    · simp at hin'
  refine ⟨?_, ?_, ?_⟩
  · rw [hrun]
    by_cases hr : resetRet < 0
    · rw [if_pos hr]
      unfold nonfatalFailed
      exact List.mem_append_left _
        (List.mem_append_right _ (List.mem_singleton.mpr rfl))
    · rw [if_neg hr]
      exact nonfatalTail_events_mem port (devsF bus) _ _ _ _
        (List.mem_append_right _ (by simp))
  · intro hr
    rw [hrun, if_pos hr]
    refine ⟨rfl, rfl, ?_, ?_⟩
    · exact hnodbg Phase.phSlotReset (by decide) (by decide)
    · exact hnodbg Phase.phResume (by decide) (by decide)
  · intro hr
    rw [hrun, if_neg (Int.not_lt.mpr hr)]

/-- Witness for `nonfatal_reset_stage`: the bus whose endpoint requests
`NEED_RESET` at the mmio stage, with a failing bus reset. -/
theorem nonfatal_reset_stage_witness :
    (statusAfterMmio (devsF exBusNR) exSigmaNormal =
      PciErsResult.needReset) ∧
    (Event.resetBus exPort.id ∈
      (pcie_do_nonfatal_recovery exPort exBusNR (-1) exSigmaNormal).events ∧
    ((-1 : Int) < 0 →
      pcie_do_nonfatal_recovery exPort exBusNR (-1) exSigmaNormal =
        nonfatalFailed exPort PciErsResult.disconnect
          (detectPhase (devsF exBusNR) exSigmaNormal).1
          (nonfatalPreEvents exPort (devsF exBusNR) exSigmaNormal ++
            [Event.resetBus exPort.id]) ∧
      (pcie_do_nonfatal_recovery exPort exBusNR (-1) exSigmaNormal).status =
        PciErsResult.disconnect ∧
      Event.dbg exPort.id Phase.phSlotReset ∉
        (pcie_do_nonfatal_recovery exPort exBusNR (-1) exSigmaNormal).events ∧
      Event.dbg exPort.id Phase.phResume ∉
        (pcie_do_nonfatal_recovery exPort exBusNR (-1) exSigmaNormal).events) ∧
    ((0 : Int) ≤ -1 →
      pcie_do_nonfatal_recovery exPort exBusNR (-1) exSigmaNormal =
        nonfatalTail exPort (devsF exBusNR)
          (walk_slot (devsF exBusNR) PciErsResult.recovered)
          (detectPhase (devsF exBusNR) exSigmaNormal).1
          (nonfatalPreEvents exPort (devsF exBusNR) exSigmaNormal ++
            [Event.resetBus exPort.id,
             Event.dbg exPort.id Phase.phSlotReset]))) :=
  ⟨by decide,
   nonfatal_reset_stage exPort exBusNR (-1) exSigmaNormal (by decide)⟩

/-- C7: the fatal path first marks every subtree device `PERM_FAILURE`,
then removes every subtree device — children always before their parents
(reverse discovery order) — and only after all removals invokes the
external link-reset primitive on the acting root. -/
theorem fatal_teardown_ordering (dev upstream : Device) (bus : List DevTree)
    (r : PciErsResult) (linkUp : Bool) (σ0 : StateMap) (p c : Nat)
    (hpc : (p, c) ∈ childIdPairsF bus) :
    (pcie_do_fatal_recovery dev upstream bus r linkUp σ0).events =
      ((devsF bus).map fun d => Event.setDisconnected d.id) ++
        (removeListRev bus ++
          Event.resetLink
            (if dev.hdr_type = HdrType.bridge then dev else upstream).id ::
            fatalTailEvents dev
              (if dev.hdr_type = HdrType.bridge then dev else upstream) r
              linkUp) ∧
    (∀ d ∈ devsF bus,
      (pcie_do_fatal_recovery dev upstream bus r linkUp σ0).chan d.id =
        ChannelState.permFailure) ∧
    (∀ d ∈ devsF bus, Event.remove d.id ∈ removeListRev bus) ∧
    List.Sublist [Event.remove c, Event.remove p] (removeListRev bus) := by
  refine ⟨?_, ?_, ?_, ?_⟩
  · unfold pcie_do_fatal_recovery
    dsimp only
    rw [walk_disconnect_events]
    simp
  · intro d hd
    unfold pcie_do_fatal_recovery
    dsimp only
    exact walk_disconnect_chan_mem (devsF bus) σ0 [] d hd
  · intro d hd
    rw [removeF_eq]
    exact List.mem_map_of_mem _ (List.mem_reverse.mpr hd)
  · rw [removeF_eq]
    have h1 : List.Sublist [p, c] ((devsF bus).map Device.id) :=
      pairsF_sub bus p c hpc
    have h3 := (h1.reverse).map (fun i => Event.remove i)
    simpa [List.map_reverse, List.map_map, Function.comp] using h3

/-- Witness for `fatal_teardown_ordering`: the bus
`A(exPort) -> B(exBridgeB) -> C(exEndpointC)` with parent/child pair
`(B, C)`, a `RECOVERED` link reset and a successful link wait. -/
theorem fatal_teardown_ordering_witness :
    ((exBridgeB.id, exEndpointC.id) ∈ childIdPairsF exBusABC) ∧
    ((pcie_do_fatal_recovery exPort exPort exBusABC PciErsResult.recovered
        true exSigmaNormal).events =
      ((devsF exBusABC).map fun d => Event.setDisconnected d.id) ++
        (removeListRev exBusABC ++
          Event.resetLink
            (if exPort.hdr_type = HdrType.bridge then exPort
             else exPort).id ::
            fatalTailEvents exPort
              (if exPort.hdr_type = HdrType.bridge then exPort else exPort)
              PciErsResult.recovered true) ∧
    (∀ d ∈ devsF exBusABC,
      (pcie_do_fatal_recovery exPort exPort exBusABC PciErsResult.recovered
        true exSigmaNormal).chan d.id = ChannelState.permFailure) ∧
    (∀ d ∈ devsF exBusABC,
      Event.remove d.id ∈ removeListRev exBusABC) ∧
    List.Sublist [Event.remove exEndpointC.id, Event.remove exBridgeB.id]
      (removeListRev exBusABC)) :=
  ⟨by decide,
   fatal_teardown_ordering exPort exPort exBusABC PciErsResult.recovered
     true exSigmaNormal exBridgeB.id exEndpointC.id (by decide)⟩

end PcieErr
